import Mathlib

/-!
Shallow embedding of the generation workflows of
`src/services/geminiService.ts` and of the in-memory history store of
`src/unnamed/part_000` (Firestore mock), together with proofs of the
specification claims about them.

The provider (Google GenAI client) is modelled as an environment record of
response functions; each workflow is translated into a function from that
environment to the pair of (the list of observable events it performs, in
order) and (its settlement: resolved value or rejection).  The video poll
loop, which the source runs without any iteration ceiling, is given an
explicit fuel parameter; exhausting the fuel is reported as a distinct
`timeout` outcome so that statements about termination can be made per
fuel bound.
-/

namespace AIGen

/-- A video operation handle, as returned by `generateVideos` /
`getVideosOperation`: a completion flag `done`, an opaque provider
continuation token (modelled as a number), and the result locator
`response?.generatedVideos?.[0]?.video?.uri` (absent = `none`). -/
structure Operation where
  done : Bool
  token : Nat
  uri : Option String
deriving Repr, DecidableEq

/-- Observable events of one orchestrator invocation, in program order:
progress-callback invocations, provider calls with their arguments, and
history writes. -/
inductive Event where
  | progress (msg : String)
  | imageCall (prompt : String) (count : Nat)
  | refreshCall (op : Operation)
  | fetchCall (uri : String)
  | captionCall (prompt : String)
  | historyCall (user : String)
deriving Repr, DecidableEq

/-- Environment of the video workflow: provider responses for the
submit call, the status refresh (a function of the handle passed in), the
binary fetch plus object-URL creation (a function of the result locator),
and the caption call; `record` is the outcome of the history write, which
the source never awaits. -/
structure VideoEnv where
  submit : Except String Operation
  refresh : Operation → Except String Operation
  fetchVideo : String → Except String String
  genCaption : String → Except String String
  record : Except String Unit

/-- Outcome of the poll phase: the loop exited with a completed handle,
a refresh call rejected, or the fuel ran out while the handle was still
incomplete. -/
inductive PollResult where
  | completed (op : Operation)
  | failed (e : String)
  | timeout
deriving Repr, DecidableEq

/-- Settlement of the video workflow: resolved with a url/caption pair,
rejected with an error, or still polling when the fuel ran out. -/
inductive VOutcome where
  | ok (url : String) (caption : String)
  | err (e : String)
  | timeout
deriving Repr, DecidableEq

/-- The fixed five-element list of poll-phase flavor strings
(`progressMessages` in the source). -/
def progressMessages : List String :=
  [ "Warming up the pixels...",
    "Directing the digital actors...",
    "Composing the visual symphony...",
    "Rendering final scenes...",
    "Almost there, adding the final touches!" ]

/-- First submission-phase progress message. -/
def craftingMsg : String := "Crafting your video prompt..."

/-- Second submission-phase progress message. -/
def sendingMsg : String := "Sending request to video model... this can take a few minutes."

/-- Progress message emitted after the poll loop exits. -/
def fetchingMsg : String := "Video generation complete! Fetching the file..."

/-- Progress message emitted before the caption call of the video path. -/
def captioningMsg : String := "Generating a catchy caption..."

/-- Final progress message of the video path. -/
def doneMsg : String := "Done!"

/-- Error message thrown when the completed operation carries no usable
result locator. -/
def noLinkMsg : String := "Video generation failed or returned no link."

/-- The composite video prompt built from the user prompt and the music
suggestion. -/
def videoPrompt (prompt musicSuggestion : String) : String :=
  prompt ++ ". The video should have a background music vibe of: " ++ musicSuggestion
    ++ ". The video should be high-quality and suitable for social media."

/-- The caption prompt of the video path, keyed on the original prompt. -/
def videoCaptionPrompt (prompt : String) : String :=
  "Generate a short, engaging social media caption for a video about: \"" ++ prompt
    ++ "\". Include 3-5 relevant hashtags."

/-- History-write events for an optional user id; the source guards the
write with JS truthiness, so the empty string performs no write. -/
def historyEvents : Option String → List Event
  | none => []
  | some u => if u = "" then [] else [Event.historyCall u]

/-- The `while (!operation.done)` loop of `generateVideoAndCaption`:
while the handle is incomplete, emit the flavor message at the current
index modulo five, then refresh the handle (the 10-second sleep has no
observable effect beyond ordering and is not modelled as an event).
`fuel` bounds the number of refresh calls. -/
def pollLoop (rf : Operation → Except String Operation) :
    Nat → Nat → Operation → List Event × PollResult
  | fuel, idx, op =>
    if op.done then ([], .completed op)
    else
      match fuel with
      | 0 => ([], .timeout)
      | f + 1 =>
        match rf op with
        | .error e =>
          ([Event.progress (progressMessages.getD (idx % 5) ""), Event.refreshCall op],
           .failed e)
        | .ok op₂ =>
          let r := pollLoop rf f (idx + 1) op₂
          (Event.progress (progressMessages.getD (idx % 5) "") :: Event.refreshCall op :: r.1,
           r.2)

/-- The tail of `generateVideoAndCaption` after the poll loop exits with a
completed handle: extract the locator (rejecting when it is absent or
empty, since JS treats the empty string as falsy), fetch the binary and
materialize an object URL, request the caption, emit the final progress
message and perform the fire-and-forget history write. -/
def finishVideo (fv : String → Except String String) (gc : String → Except String String)
    (prompt : String) (userId : Option String)
    (op : Operation) : List Event × VOutcome :=
  match op.uri with
  | none => ([Event.progress fetchingMsg], .err noLinkMsg)
  | some link =>
    if link = "" then ([Event.progress fetchingMsg], .err noLinkMsg)
    else
      match fv link with
      | .error e => ([Event.progress fetchingMsg, Event.fetchCall link], .err e)
      | .ok url =>
        match gc (videoCaptionPrompt prompt) with
        | .error e =>
          ([Event.progress fetchingMsg, Event.fetchCall link,
            Event.progress captioningMsg, Event.captionCall (videoCaptionPrompt prompt)],
           .err e)
        | .ok cap =>
          ([Event.progress fetchingMsg, Event.fetchCall link,
            Event.progress captioningMsg, Event.captionCall (videoCaptionPrompt prompt),
            Event.progress doneMsg] ++ historyEvents userId,
           .ok url cap)

/-- Shallow embedding of `generateVideoAndCaption`: two submission-phase
progress messages, the asynchronous job submission, the poll loop, then
the fetch/caption/record tail. -/
def generateVideoAndCaption (env : VideoEnv) (fuel : Nat) (prompt : String)
    (userId : Option String) : List Event × VOutcome :=
  let pre := [Event.progress craftingMsg, Event.progress sendingMsg]
  match env.submit with
  | .error e => (pre, .err e)
  | .ok op₀ =>
    let p := pollLoop env.refresh fuel 0 op₀
    match p.2 with
    | .timeout => (pre ++ p.1, .timeout)
    | .failed e => (pre ++ p.1, .err e)
    | .completed op =>
      let f := finishVideo env.fetchVideo env.genCaption prompt userId op
      (pre ++ p.1 ++ f.1, f.2)

/-! ### Trace observations for the video path -/

/-- The operation handle carried by a refresh-call event, if any. -/
def eventOp : Event → Option Operation
  | .refreshCall o => some o
  | _ => none

/-- The operand of every status-refresh call of a trace, in call order. -/
def refreshOps (tr : List Event) : List Operation := tr.filterMap eventOp

/-- The message carried by a progress event, if any. -/
def eventMsg : Event → Option String
  | .progress m => some m
  | _ => none

/-- The progress-callback messages of a trace, in call order. -/
def progressTexts (tr : List Event) : List String := tr.filterMap eventMsg

/-- Whether an event is the binary-artifact fetch call. -/
def isFetch : Event → Bool
  | .fetchCall _ => true
  | _ => false

/-- Whether an event is a progress-callback invocation. -/
def isProgress : Event → Bool
  | .progress _ => true
  | _ => false

/-- Whether an event is the batch image submission. -/
def isImageCall : Event → Bool
  | .imageCall _ _ => true
  | _ => false

/-- Whether some progress-callback invocation occurs strictly after the
first artifact-fetch call of a trace. -/
def hasProgressAfterFetch (tr : List Event) : Bool :=
  (((tr.dropWhile fun e => ! isFetch e).drop 1).any isProgress)

/-- The handle the poll loop holds after k refresh rounds, starting from
the submitted handle: `none` once the loop has already exited (the handle
completed, or a refresh rejected) before round k. -/
def opAfter (rf : Operation → Except String Operation) (op : Operation) :
    Nat → Option Operation
  | 0 => some op
  | k + 1 =>
    match opAfter rf op k with
    | none => none
    | some o =>
      if o.done then none
      else
        match rf o with
        | .ok o₂ => some o₂
        | .error _ => none

/-! ### Image path -/

/-- Environment of the image workflow: the batch image call (a function of
the composite prompt and the requested variation count, returning the
per-image base64 payloads), the caption call (a function of the branch
index — distinct concurrent calls may settle differently — and the caption
prompt), and the never-awaited history-write outcome. -/
structure ImageEnv where
  genImages : String → Nat → Except String (List String)
  genCaption : Nat → String → Except String String
  record : Except String Unit

/-- The composite image prompt: the overlay text is appended as an
instruction fragment when present; JS truthiness makes the empty overlay
behave as absent. -/
def fullPromptOf (prompt textOverlay : String) : String :=
  if textOverlay = "" then prompt
  else prompt ++ ", with the text \"" ++ textOverlay
    ++ "\" clearly visible and elegantly integrated."

/-- The caption prompt of the image path, keyed on the original
(non-overlay) prompt. -/
def imageCaptionPrompt (prompt : String) : String :=
  "Generate a short, catchy social media caption for an image about: \"" ++ prompt
    ++ "\". Include 3-5 relevant hashtags."

/-- The locator built for one returned image payload: a data URL over the
base64 bytes. -/
def dataUrlOf (bytes : String) : String := "data:image/jpeg;base64," ++ bytes

/-- Per-image branch of `generateImagesAndCaptions` (the `Promise.all`
fan-out, sequentialized in provider order with the branch index made
explicit): build the data URL, request a caption, record the result when a
user id is present; a rejection of any branch rejects the whole join. -/
def captionEach (gc : Nat → String → Except String String) (prompt : String)
    (userId : Option String) :
    Nat → List String → List Event × Except String (List (String × String))
  | _, [] => ([], .ok [])
  | idx, bytes :: rest =>
    match gc idx (imageCaptionPrompt prompt) with
    | .error e => ([Event.captionCall (imageCaptionPrompt prompt)], .error e)
    | .ok cap =>
      let r := captionEach gc prompt userId (idx + 1) rest
      (Event.captionCall (imageCaptionPrompt prompt) :: (historyEvents userId ++ r.1),
       match r.2 with
       | .error e => .error e
       | .ok l => .ok ((dataUrlOf bytes, cap) :: l))

/-- Shallow embedding of `generateImagesAndCaptions`: one batch submission
with the composite prompt, then the per-image caption join. -/
def generateImagesAndCaptions (env : ImageEnv) (prompt textOverlay : String)
    (variations : Nat) (userId : Option String) :
    List Event × Except String (List (String × String)) :=
  match env.genImages (fullPromptOf prompt textOverlay) variations with
  | .error e => ([Event.imageCall (fullPromptOf prompt textOverlay) variations], .error e)
  | .ok imgs =>
    let r := captionEach env.genCaption prompt userId 0 imgs
    (Event.imageCall (fullPromptOf prompt textOverlay) variations :: r.1, r.2)

/-! ### History store (`src/unnamed/part_000`, Firestore mock) -/

/-- A stored media record (`GeneratedMedia` of `src/types.ts`). -/
structure GeneratedMedia where
  id : String
  type : String
  prompt : String
  url : String
  caption : String
  timestamp : Nat
deriving Repr, DecidableEq

/-- The in-memory history table: per user id, `none` when the user has no
log yet (the JS object has no such key), otherwise the stored list. -/
def HistoryDB : Type := String → Option (List GeneratedMedia)

/-- Descending-timestamp comparison used by the `getHistory`

  sort((a, b) => b.timestamp - a.timestamp)

comparator. -/
def newestFirst (a b : GeneratedMedia) : Bool := b.timestamp ≤ a.timestamp

/-- Shallow embedding of `getHistory`: create the empty log for an unseen
user, then return a sorted copy (newest first) of the log of that user, leaving
the stored lists otherwise untouched.  Returns the updated table and the
returned list. -/
def getHistory (db : HistoryDB) (userId : String) :
    HistoryDB × List GeneratedMedia :=
  let entries := (db userId).getD []
  (fun u => if u = userId then some entries else db u,
   entries.mergeSort newestFirst)

/-! ### Concrete stub environments used to exercise the workflows -/

/-- Stub refresh: the handle completes on the third refresh call
(tokens count the refreshes performed so far). -/
def stubRefresh (o : Operation) : Except String Operation :=
  if o.token + 1 = 3 then .ok ⟨true, o.token + 1, some "stub://video"⟩
  else .ok ⟨false, o.token + 1, none⟩

/-- Stub provider whose video operation reports completion only on the
third refresh; fetch and caption succeed. -/
def stubEnv3 : VideoEnv :=
  { submit := .ok ⟨false, 0, none⟩
    refresh := stubRefresh
    fetchVideo := fun _ => .ok "blob:stub"
    genCaption := fun _ => .ok "caption"
    record := .ok () }

/-- Stub provider whose operation is already complete at submission but
carries no result locator. -/
def stubEnvNoLink : VideoEnv :=
  { submit := .ok ⟨true, 0, none⟩
    refresh := fun o => .ok o
    fetchVideo := fun _ => .ok "blob:unused"
    genCaption := fun _ => .ok "caption"
    record := .ok () }

/-- Stub provider whose job submission rejects. -/
def stubEnvSubmitFail : VideoEnv :=
  { submit := .error "quota exceeded"
    refresh := fun o => .ok o
    fetchVideo := fun _ => .ok "blob:unused"
    genCaption := fun _ => .ok "caption"
    record := .ok () }

/-- Stub provider whose operation completes at once with a locator but
whose binary fetch rejects. -/
def stubEnvFetchFail : VideoEnv :=
  { submit := .ok ⟨true, 0, some "stub://video"⟩
    refresh := fun o => .ok o
    fetchVideo := fun _ => .error "network down"
    genCaption := fun _ => .ok "caption"
    record := .ok () }

/-- Stub image provider answering every request successfully. -/
def stubImageEnv : ImageEnv :=
  { genImages := fun _ n => .ok (List.replicate n "QkJCQg==")
    genCaption := fun _ _ => .ok "stub caption"
    record := .ok () }

/-- Stub image provider whose caption calls all reject. -/
def stubImageEnvCapFail : ImageEnv :=
  { genImages := fun _ n => .ok (List.replicate n "QkJCQg==")
    genCaption := fun _ _ => .error "caption model unavailable"
    record := .ok () }

/-! ### Computation rules for the trace observers -/

@[simp] theorem refreshOps_nil : refreshOps [] = [] := rfl

@[simp] theorem refreshOps_cons_progress (m : String) (tr : List Event) :
    refreshOps (Event.progress m :: tr) = refreshOps tr := by simp [refreshOps, eventOp]

@[simp] theorem refreshOps_cons_refresh (o : Operation) (tr : List Event) :
    refreshOps (Event.refreshCall o :: tr) = o :: refreshOps tr := by
  simp [refreshOps, eventOp]

@[simp] theorem refreshOps_cons_image (p : String) (n : Nat) (tr : List Event) :
    refreshOps (Event.imageCall p n :: tr) = refreshOps tr := by simp [refreshOps, eventOp]

@[simp] theorem refreshOps_cons_fetch (u : String) (tr : List Event) :
    refreshOps (Event.fetchCall u :: tr) = refreshOps tr := by simp [refreshOps, eventOp]

@[simp] theorem refreshOps_cons_caption (p : String) (tr : List Event) :
    refreshOps (Event.captionCall p :: tr) = refreshOps tr := by simp [refreshOps, eventOp]

@[simp] theorem refreshOps_cons_history (u : String) (tr : List Event) :
    refreshOps (Event.historyCall u :: tr) = refreshOps tr := by simp [refreshOps, eventOp]

@[simp] theorem refreshOps_append (l₁ l₂ : List Event) :
    refreshOps (l₁ ++ l₂) = refreshOps l₁ ++ refreshOps l₂ := by simp [refreshOps]

@[simp] theorem progressTexts_nil : progressTexts [] = [] := rfl

@[simp] theorem progressTexts_cons_progress (m : String) (tr : List Event) :
    progressTexts (Event.progress m :: tr) = m :: progressTexts tr := by
  simp [progressTexts, eventMsg]

@[simp] theorem progressTexts_cons_refresh (o : Operation) (tr : List Event) :
    progressTexts (Event.refreshCall o :: tr) = progressTexts tr := by
  simp [progressTexts, eventMsg]

@[simp] theorem progressTexts_cons_image (p : String) (n : Nat) (tr : List Event) :
    progressTexts (Event.imageCall p n :: tr) = progressTexts tr := by
  simp [progressTexts, eventMsg]

@[simp] theorem progressTexts_cons_fetch (u : String) (tr : List Event) :
    progressTexts (Event.fetchCall u :: tr) = progressTexts tr := by
  simp [progressTexts, eventMsg]

@[simp] theorem progressTexts_cons_caption (p : String) (tr : List Event) :
    progressTexts (Event.captionCall p :: tr) = progressTexts tr := by
  simp [progressTexts, eventMsg]

@[simp] theorem progressTexts_cons_history (u : String) (tr : List Event) :
    progressTexts (Event.historyCall u :: tr) = progressTexts tr := by
  simp [progressTexts, eventMsg]

@[simp] theorem progressTexts_append (l₁ l₂ : List Event) :
    progressTexts (l₁ ++ l₂) = progressTexts l₁ ++ progressTexts l₂ := by
  simp [progressTexts]

/-! ### Poll-loop lemmas -/

theorem pollLoop_of_done (rf : Operation → Except String Operation) (fuel idx : Nat)
    (op : Operation) (h : op.done = true) :
    pollLoop rf fuel idx op = ([], .completed op) := by
  cases fuel <;> rw [pollLoop] <;> simp [h]

theorem pollLoop_zero (rf : Operation → Except String Operation) (idx : Nat)
    (op : Operation) (h : op.done = false) :
    pollLoop rf 0 idx op = ([], .timeout) := by
  rw [pollLoop]; simp [h]

theorem pollLoop_succ_error (rf : Operation → Except String Operation) (f idx : Nat)
    (op : Operation) (e : String) (h : op.done = false) (he : rf op = .error e) :
    pollLoop rf (f + 1) idx op =
      ([Event.progress (progressMessages.getD (idx % 5) ""), Event.refreshCall op],
       .failed e) := by
  rw [pollLoop]; simp [h, he]

theorem pollLoop_succ_ok (rf : Operation → Except String Operation) (f idx : Nat)
    (op op₂ : Operation) (h : op.done = false) (he : rf op = .ok op₂) :
    pollLoop rf (f + 1) idx op =
      (Event.progress (progressMessages.getD (idx % 5) "") :: Event.refreshCall op ::
         (pollLoop rf f (idx + 1) op₂).1,
       (pollLoop rf f (idx + 1) op₂).2) := by
  rw [pollLoop]; simp [h, he]

theorem pollLoop_refresh_not_done (rf : Operation → Except String Operation) (fuel : Nat) :
    ∀ idx op o, o ∈ refreshOps (pollLoop rf fuel idx op).1 → o.done = false := by
  induction fuel with
  | zero =>
    intro idx op o ho
    cases hd : op.done with
    | true => rw [pollLoop_of_done rf 0 idx op hd] at ho; simp [refreshOps] at ho
    | false => rw [pollLoop_zero rf idx op hd] at ho; simp [refreshOps] at ho
  | succ f ih =>
    intro idx op o ho
    cases hd : op.done with
    | true => rw [pollLoop_of_done rf (f + 1) idx op hd] at ho; simp [refreshOps] at ho
    | false =>
      cases hr : rf op with
      | error e =>
        rw [pollLoop_succ_error rf f idx op e hd hr] at ho
        simp at ho
        subst ho; exact hd
      | ok op₂ =>
        rw [pollLoop_succ_ok rf f idx op op₂ hd hr] at ho
        simp at ho
        rcases ho with ho | ho
        · subst ho; exact hd
        · exact ih (idx + 1) op₂ o ho

theorem pollLoop_refreshOps_head (rf : Operation → Except String Operation)
    (fuel idx : Nat) (op o : Operation)
    (h : (refreshOps (pollLoop rf fuel idx op).1)[0]? = some o) : o = op := by
  cases hd : op.done with
  | true => rw [pollLoop_of_done rf fuel idx op hd] at h; simp [refreshOps] at h
  | false =>
    cases fuel with
    | zero => rw [pollLoop_zero rf idx op hd] at h; simp [refreshOps] at h
    | succ f =>
      cases hr : rf op with
      | error e =>
        rw [pollLoop_succ_error rf f idx op e hd hr] at h
        simp at h
        exact h.symm
      | ok op₂ =>
        rw [pollLoop_succ_ok rf f idx op op₂ hd hr] at h
        simp at h
        exact h.symm

theorem pollLoop_refreshOps_chain (rf : Operation → Except String Operation) (fuel : Nat) :
    ∀ idx op k o o₂,
      (refreshOps (pollLoop rf fuel idx op).1)[k]? = some o →
      (refreshOps (pollLoop rf fuel idx op).1)[k + 1]? = some o₂ →
      rf o = .ok o₂ := by
  induction fuel with
  | zero =>
    intro idx op k o o₂ h1 _
    cases hd : op.done with
    | true => rw [pollLoop_of_done rf 0 idx op hd] at h1; simp [refreshOps] at h1
    | false => rw [pollLoop_zero rf idx op hd] at h1; simp [refreshOps] at h1
  | succ f ih =>
    intro idx op k o o₂ h1 h2
    cases hd : op.done with
    | true => rw [pollLoop_of_done rf (f + 1) idx op hd] at h1; simp [refreshOps] at h1
    | false =>
      cases hr : rf op with
      | error e =>
        rw [pollLoop_succ_error rf f idx op e hd hr] at h2
        simp at h2
      | ok op₂' =>
        rw [pollLoop_succ_ok rf f idx op op₂' hd hr] at h1
        rw [pollLoop_succ_ok rf f idx op op₂' hd hr] at h2
        simp at h1 h2
        cases k with
        | zero =>
          simp at h1 h2
          have ho₂ := pollLoop_refreshOps_head rf f (idx + 1) op₂' o₂ h2
          rw [← h1, hr, ho₂]
        | succ k =>
          simp at h1 h2
          exact ih (idx + 1) op₂' k o o₂ h1 h2

theorem pollLoop_noFetch (rf : Operation → Except String Operation) (fuel : Nat) :
    ∀ idx op e, e ∈ (pollLoop rf fuel idx op).1 → isFetch e = false := by
  induction fuel with
  | zero =>
    intro idx op e he
    cases hd : op.done with
    | true => rw [pollLoop_of_done rf 0 idx op hd] at he; simp at he
    | false => rw [pollLoop_zero rf idx op hd] at he; simp at he
  | succ f ih =>
    intro idx op e he
    cases hd : op.done with
    | true => rw [pollLoop_of_done rf (f + 1) idx op hd] at he; simp at he
    | false =>
      cases hr : rf op with
      | error e₂ =>
        rw [pollLoop_succ_error rf f idx op e₂ hd hr] at he
        simp at he
        rcases he with he | he <;> subst he <;> simp [isFetch]
      | ok op₂ =>
        rw [pollLoop_succ_ok rf f idx op op₂ hd hr] at he
        simp at he
        rcases he with he | he | he
        · subst he; simp [isFetch]
        · subst he; simp [isFetch]
        · exact ih (idx + 1) op₂ e he

theorem progressTexts_pollLoop (rf : Operation → Except String Operation) (fuel : Nat) :
    ∀ idx op k, k < (progressTexts (pollLoop rf fuel idx op).1).length →
      (progressTexts (pollLoop rf fuel idx op).1).getD k "" =
        progressMessages.getD ((idx + k) % 5) "" := by
  induction fuel with
  | zero =>
    intro idx op k hk
    cases hd : op.done with
    | true => rw [pollLoop_of_done rf 0 idx op hd] at hk; simp [progressTexts] at hk
    | false => rw [pollLoop_zero rf idx op hd] at hk; simp [progressTexts] at hk
  | succ f ih =>
    intro idx op k hk
    cases hd : op.done with
    | true => rw [pollLoop_of_done rf (f + 1) idx op hd] at hk; simp [progressTexts] at hk
    | false =>
      cases hr : rf op with
      | error e =>
        rw [pollLoop_succ_error rf f idx op e hd hr] at hk ⊢
        simp [progressTexts, eventMsg] at hk
        have hk0 : k = 0 := by omega
        subst hk0
        simp [progressTexts, eventMsg]
      | ok op₂ =>
        rw [pollLoop_succ_ok rf f idx op op₂ hd hr] at hk ⊢
        cases k with
        | zero => simp [progressTexts, eventMsg]
        | succ k =>
          simp [progressTexts, eventMsg] at hk ⊢
          have := ih (idx + 1) op₂ k (by simpa [progressTexts] using hk)
          have harith : idx + 1 + k = idx + (k + 1) := by omega
          rw [← harith]
          simpa [progressTexts] using this

theorem opAfter_zero (rf : Operation → Except String Operation) (op : Operation) :
    opAfter rf op 0 = some op := rfl

theorem opAfter_of_done (rf : Operation → Except String Operation) (op : Operation)
    (h : op.done = true) : ∀ k, opAfter rf op (k + 1) = none := by
  intro k
  induction k with
  | zero => rw [opAfter]; simp [opAfter, h]
  | succ k ih => rw [opAfter]; simp [ih]

theorem opAfter_error (rf : Operation → Except String Operation) (op : Operation)
    (e : String) (h : op.done = false) (he : rf op = .error e) :
    ∀ k, opAfter rf op (k + 1) = none := by
  intro k
  induction k with
  | zero => rw [opAfter]; simp [opAfter, h, he]
  | succ k ih => rw [opAfter]; simp [ih]

theorem opAfter_shift (rf : Operation → Except String Operation) (op op₂ : Operation)
    (h : op.done = false) (he : rf op = .ok op₂) :
    ∀ k, opAfter rf op (k + 1) = opAfter rf op₂ k := by
  intro k
  induction k with
  | zero => rw [opAfter]; simp [opAfter, h, he]
  | succ k ih =>
    rw [opAfter, ih]
    conv_rhs => rw [opAfter]

theorem pollLoop_completed_iff (rf : Operation → Except String Operation) (fuel : Nat) :
    ∀ idx op q, (pollLoop rf fuel idx op).2 = .completed q ↔
      ∃ k, k ≤ fuel ∧ opAfter rf op k = some q ∧ q.done = true := by
  induction fuel with
  | zero =>
    intro idx op q
    cases hd : op.done with
    | true =>
      rw [pollLoop_of_done rf 0 idx op hd]
      constructor
      · intro h
        simp at h
        exact ⟨0, Nat.le_refl 0, by rw [opAfter_zero, h], by rw [← h]; exact hd⟩
      · rintro ⟨k, hk, hop, _⟩
        have hk0 : k = 0 := by omega
        subst hk0
        rw [opAfter_zero] at hop
        simp at hop ⊢
        exact hop
    | false =>
      rw [pollLoop_zero rf idx op hd]
      constructor
      · intro h; simp at h
      · rintro ⟨k, hk, hop, hq⟩
        have hk0 : k = 0 := by omega
        subst hk0
        rw [opAfter_zero] at hop
        cases hop
        rw [hd] at hq
        cases hq
  | succ f ih =>
    intro idx op q
    cases hd : op.done with
    | true =>
      rw [pollLoop_of_done rf (f + 1) idx op hd]
      constructor
      · intro h
        simp at h
        exact ⟨0, Nat.zero_le _, by rw [opAfter_zero, h], by rw [← h]; exact hd⟩
      · rintro ⟨k, _, hop, _⟩
        cases k with
        | zero =>
          rw [opAfter_zero] at hop
          simp at hop ⊢
          exact hop
        | succ k =>
          rw [opAfter_of_done rf op hd k] at hop
          cases hop
    | false =>
      cases hr : rf op with
      | error e =>
        rw [pollLoop_succ_error rf f idx op e hd hr]
        constructor
        · intro h; simp at h
        · rintro ⟨k, _, hop, hq⟩
          cases k with
          | zero =>
            rw [opAfter_zero] at hop
            cases hop
            rw [hd] at hq
            cases hq
          | succ k =>
            rw [opAfter_error rf op e hd hr k] at hop
            cases hop
      | ok op₂ =>
        rw [pollLoop_succ_ok rf f idx op op₂ hd hr]
        rw [ih (idx + 1) op₂ q]
        constructor
        · rintro ⟨k, hk, hop, hq⟩
          exact ⟨k + 1, by omega, by rw [opAfter_shift rf op op₂ hd hr k]; exact hop, hq⟩
        · rintro ⟨k, hk, hop, hq⟩
          cases k with
          | zero =>
            rw [opAfter_zero] at hop
            cases hop
            rw [hd] at hq
            cases hq
          | succ k =>
            rw [opAfter_shift rf op op₂ hd hr k] at hop
            exact ⟨k, by omega, hop, hq⟩

/-! ### Tail-phase and whole-workflow unfolding lemmas -/

theorem historyEvents_refreshOps (uid : Option String) :
    refreshOps (historyEvents uid) = [] := by
  cases uid with
  | none => rfl
  | some u =>
    by_cases hu : u = "" <;> simp [historyEvents, hu]

theorem historyEvents_noFetch (uid : Option String) :
    ∀ e ∈ historyEvents uid, isFetch e = false := by
  cases uid with
  | none => intro e he; simp [historyEvents] at he
  | some u =>
    intro e he
    by_cases hu : u = "" <;> simp [historyEvents, hu] at he
    subst he; simp [isFetch]

theorem finishVideo_uri_none (fv gc : String → Except String String) (prompt : String)
    (uid : Option String) (op : Operation) (h : op.uri = none) :
    finishVideo fv gc prompt uid op = ([Event.progress fetchingMsg], .err noLinkMsg) := by
  simp [finishVideo, h]

theorem finishVideo_uri_empty (fv gc : String → Except String String) (prompt : String)
    (uid : Option String) (op : Operation) (h : op.uri = some "") :
    finishVideo fv gc prompt uid op = ([Event.progress fetchingMsg], .err noLinkMsg) := by
  simp [finishVideo, h]

theorem finishVideo_fetch_error (fv gc : String → Except String String) (prompt : String)
    (uid : Option String) (op : Operation) (link e : String)
    (h : op.uri = some link) (hl : link ≠ "") (hf : fv link = .error e) :
    finishVideo fv gc prompt uid op =
      ([Event.progress fetchingMsg, Event.fetchCall link], .err e) := by
  simp [finishVideo, h, hl, hf]

theorem finishVideo_caption_error (fv gc : String → Except String String) (prompt : String)
    (uid : Option String) (op : Operation) (link url e : String)
    (h : op.uri = some link) (hl : link ≠ "") (hf : fv link = .ok url)
    (hc : gc (videoCaptionPrompt prompt) = .error e) :
    finishVideo fv gc prompt uid op =
      ([Event.progress fetchingMsg, Event.fetchCall link,
        Event.progress captioningMsg, Event.captionCall (videoCaptionPrompt prompt)],
       .err e) := by
  simp [finishVideo, h, hl, hf, hc]

theorem finishVideo_ok (fv gc : String → Except String String) (prompt : String)
    (uid : Option String) (op : Operation) (link url cap : String)
    (h : op.uri = some link) (hl : link ≠ "") (hf : fv link = .ok url)
    (hc : gc (videoCaptionPrompt prompt) = .ok cap) :
    finishVideo fv gc prompt uid op =
      ([Event.progress fetchingMsg, Event.fetchCall link,
        Event.progress captioningMsg, Event.captionCall (videoCaptionPrompt prompt),
        Event.progress doneMsg] ++ historyEvents uid,
       .ok url cap) := by
  simp [finishVideo, h, hl, hf, hc]

theorem finishVideo_refreshOps (fv gc : String → Except String String) (prompt : String)
    (uid : Option String) (op : Operation) :
    refreshOps (finishVideo fv gc prompt uid op).1 = [] := by
  cases h : op.uri with
  | none => rw [finishVideo_uri_none fv gc prompt uid op h]; simp
  | some link =>
    by_cases hl : link = ""
    · subst hl; rw [finishVideo_uri_empty fv gc prompt uid op h]; simp
    · cases hf : fv link with
      | error e => rw [finishVideo_fetch_error fv gc prompt uid op link e h hl hf]; simp
      | ok url =>
        cases hc : gc (videoCaptionPrompt prompt) with
        | error e =>
          rw [finishVideo_caption_error fv gc prompt uid op link url e h hl hf hc]; simp
        | ok cap =>
          rw [finishVideo_ok fv gc prompt uid op link url cap h hl hf hc]
          simp [historyEvents_refreshOps]

theorem genVideo_submit_error (env : VideoEnv) (fuel : Nat) (prompt : String)
    (uid : Option String) (e : String) (hsub : env.submit = .error e) :
    generateVideoAndCaption env fuel prompt uid =
      ([Event.progress craftingMsg, Event.progress sendingMsg], .err e) := by
  simp [generateVideoAndCaption, hsub]

theorem genVideo_poll_timeout (env : VideoEnv) (fuel : Nat) (prompt : String)
    (uid : Option String) (op₀ : Operation) (hsub : env.submit = .ok op₀)
    (hp : (pollLoop env.refresh fuel 0 op₀).2 = .timeout) :
    generateVideoAndCaption env fuel prompt uid =
      ([Event.progress craftingMsg, Event.progress sendingMsg] ++
         (pollLoop env.refresh fuel 0 op₀).1, .timeout) := by
  simp [generateVideoAndCaption, hsub, hp]

theorem genVideo_poll_failed (env : VideoEnv) (fuel : Nat) (prompt : String)
    (uid : Option String) (op₀ : Operation) (e : String) (hsub : env.submit = .ok op₀)
    (hp : (pollLoop env.refresh fuel 0 op₀).2 = .failed e) :
    generateVideoAndCaption env fuel prompt uid =
      ([Event.progress craftingMsg, Event.progress sendingMsg] ++
         (pollLoop env.refresh fuel 0 op₀).1, .err e) := by
  simp [generateVideoAndCaption, hsub, hp]

theorem genVideo_poll_completed (env : VideoEnv) (fuel : Nat) (prompt : String)
    (uid : Option String) (op₀ op : Operation) (hsub : env.submit = .ok op₀)
    (hp : (pollLoop env.refresh fuel 0 op₀).2 = .completed op) :
    generateVideoAndCaption env fuel prompt uid =
      ([Event.progress craftingMsg, Event.progress sendingMsg] ++
         (pollLoop env.refresh fuel 0 op₀).1 ++
         (finishVideo env.fetchVideo env.genCaption prompt uid op).1,
       (finishVideo env.fetchVideo env.genCaption prompt uid op).2) := by
  simp [generateVideoAndCaption, hsub, hp]

/-! ### Progress-after-fetch helpers -/

theorem hPAF_cons_nonfetch (e : Event) (l : List Event) (h : isFetch e = false) :
    hasProgressAfterFetch (e :: l) = hasProgressAfterFetch l := by
  simp [hasProgressAfterFetch, List.dropWhile_cons, h]

theorem hPAF_cons_fetch (u : String) (l : List Event) :
    hasProgressAfterFetch (Event.fetchCall u :: l) = l.any isProgress := by
  simp [hasProgressAfterFetch, List.dropWhile_cons, isFetch]

theorem hPAF_append_noFetch (l₁ l₂ : List Event) (h : ∀ e ∈ l₁, isFetch e = false) :
    hasProgressAfterFetch (l₁ ++ l₂) = hasProgressAfterFetch l₂ := by
  induction l₁ with
  | nil => rfl
  | cons a l ih =>
    rw [List.cons_append, hPAF_cons_nonfetch a (l ++ l₂) (h a (by simp))]
    exact ih fun e he => h e (by simp [he])

/-! ### Image-path lemmas -/

theorem captionEach_nil (gc : Nat → String → Except String String) (prompt : String)
    (uid : Option String) (idx : Nat) :
    captionEach gc prompt uid idx [] = ([], .ok []) := rfl

theorem captionEach_cons_error (gc : Nat → String → Except String String)
    (prompt : String) (uid : Option String) (idx : Nat) (bytes : String)
    (rest : List String) (e : String)
    (h : gc idx (imageCaptionPrompt prompt) = .error e) :
    captionEach gc prompt uid idx (bytes :: rest) =
      ([Event.captionCall (imageCaptionPrompt prompt)], .error e) := by
  rw [captionEach]; simp [h]

theorem captionEach_cons_ok (gc : Nat → String → Except String String)
    (prompt : String) (uid : Option String) (idx : Nat) (bytes : String)
    (rest : List String) (cap : String)
    (h : gc idx (imageCaptionPrompt prompt) = .ok cap) :
    captionEach gc prompt uid idx (bytes :: rest) =
      (Event.captionCall (imageCaptionPrompt prompt) ::
         (historyEvents uid ++ (captionEach gc prompt uid (idx + 1) rest).1),
       match (captionEach gc prompt uid (idx + 1) rest).2 with
       | .error e => .error e
       | .ok l => .ok ((dataUrlOf bytes, cap) :: l)) := by
  rw [captionEach]; simp [h]

theorem captionEach_ok_spec (gc : Nat → String → Except String String) (prompt : String)
    (uid : Option String) :
    ∀ bytes idx l, (captionEach gc prompt uid idx bytes).2 = .ok l →
      l.length = bytes.length ∧
      ∀ j, j < bytes.length →
        ∃ c, gc (idx + j) (imageCaptionPrompt prompt) = .ok c ∧
          l.getD j ("", "") = (dataUrlOf (bytes.getD j ""), c) := by
  intro bytes
  induction bytes with
  | nil =>
    intro idx l hl
    rw [captionEach_nil] at hl
    simp at hl
    subst hl
    exact ⟨rfl, fun j hj => by simp at hj⟩
  | cons b rest ih =>
    intro idx l hl
    cases hgc : gc idx (imageCaptionPrompt prompt) with
    | error e =>
      rw [captionEach_cons_error gc prompt uid idx b rest e hgc] at hl
      simp at hl
    | ok cap =>
      rw [captionEach_cons_ok gc prompt uid idx b rest cap hgc] at hl
      cases hr : (captionEach gc prompt uid (idx + 1) rest).2 with
      | error e => rw [hr] at hl; simp at hl
      | ok l₂ =>
        rw [hr] at hl
        simp at hl
        subst hl
        obtain ⟨hlen, hspec⟩ := ih (idx + 1) l₂ hr
        refine ⟨by simp [hlen], fun j hj => ?_⟩
        cases j with
        | zero => exact ⟨cap, by simpa using hgc, by simp⟩
        | succ j =>
          obtain ⟨c, hc, hl⟩ := hspec j (by simpa using hj)
          refine ⟨c, ?_, by simpa using hl⟩
          have harith : idx + 1 + j = idx + (j + 1) := by omega
          rw [← harith]
          exact hc

theorem captionEach_all_ok (gc : Nat → String → Except String String) (prompt : String)
    (uid : Option String) :
    ∀ bytes idx,
      (∀ j, j < bytes.length → ∃ c, gc (idx + j) (imageCaptionPrompt prompt) = .ok c) →
      ∃ l, (captionEach gc prompt uid idx bytes).2 = .ok l := by
  intro bytes
  induction bytes with
  | nil => exact fun idx _ => ⟨[], rfl⟩
  | cons b rest ih =>
    intro idx h
    obtain ⟨c, hc⟩ := h 0 (by simp)
    rw [Nat.add_zero] at hc
    obtain ⟨l₂, hl₂⟩ := ih (idx + 1) fun j hj => by
      have harith : idx + 1 + j = idx + (j + 1) := by omega
      rw [harith]
      exact h (j + 1) (by simpa using hj)
    refine ⟨(dataUrlOf b, c) :: l₂, ?_⟩
    rw [captionEach_cons_ok gc prompt uid idx b rest c hc, hl₂]

theorem historyEvents_noCaptionCall (uid : Option String) (p : String) :
    Event.captionCall p ∉ historyEvents uid := by
  cases uid with
  | none => simp [historyEvents]
  | some u => by_cases hu : u = "" <;> simp [historyEvents, hu]

theorem captionEach_captionCalls (gc : Nat → String → Except String String)
    (prompt : String) (uid : Option String) :
    ∀ bytes idx p, Event.captionCall p ∈ (captionEach gc prompt uid idx bytes).1 →
      p = imageCaptionPrompt prompt := by
  intro bytes
  induction bytes with
  | nil => intro idx p hp; rw [captionEach_nil] at hp; simp at hp
  | cons b rest ih =>
    intro idx p hp
    cases hgc : gc idx (imageCaptionPrompt prompt) with
    | error e =>
      rw [captionEach_cons_error gc prompt uid idx b rest e hgc] at hp
      simp at hp
      exact hp
    | ok cap =>
      rw [captionEach_cons_ok gc prompt uid idx b rest cap hgc] at hp
      simp at hp
      rcases hp with hp | hp | hp
      · exact hp
      · exact absurd hp (historyEvents_noCaptionCall uid p)
      · exact ih (idx + 1) p hp

theorem historyEvents_noImageCall (uid : Option String) :
    List.countP isImageCall (historyEvents uid) = 0 := by
  cases uid with
  | none => rfl
  | some u => by_cases hu : u = "" <;> simp [historyEvents, hu, isImageCall]

theorem captionEach_noImageCall (gc : Nat → String → Except String String)
    (prompt : String) (uid : Option String) :
    ∀ bytes idx, List.countP isImageCall (captionEach gc prompt uid idx bytes).1 = 0 := by
  intro bytes
  induction bytes with
  | nil => intro idx; rfl
  | cons b rest ih =>
    intro idx
    cases hgc : gc idx (imageCaptionPrompt prompt) with
    | error e =>
      rw [captionEach_cons_error gc prompt uid idx b rest e hgc]
      simp [isImageCall]
    | ok cap =>
      rw [captionEach_cons_ok gc prompt uid idx b rest cap hgc]
      simp [List.countP_cons, isImageCall, ih (idx + 1), historyEvents_noImageCall]

theorem genImages_error (env : ImageEnv) (prompt textOverlay : String)
    (variations : Nat) (uid : Option String) (e : String)
    (h : env.genImages (fullPromptOf prompt textOverlay) variations = .error e) :
    generateImagesAndCaptions env prompt textOverlay variations uid =
      ([Event.imageCall (fullPromptOf prompt textOverlay) variations], .error e) := by
  simp [generateImagesAndCaptions, h]

theorem genImages_ok (env : ImageEnv) (prompt textOverlay : String)
    (variations : Nat) (uid : Option String) (imgs : List String)
    (h : env.genImages (fullPromptOf prompt textOverlay) variations = .ok imgs) :
    generateImagesAndCaptions env prompt textOverlay variations uid =
      (Event.imageCall (fullPromptOf prompt textOverlay) variations ::
         (captionEach env.genCaption prompt uid 0 imgs).1,
       (captionEach env.genCaption prompt uid 0 imgs).2) := by
  simp [generateImagesAndCaptions, h]

theorem dataUrlOf_ne_empty (b : String) : dataUrlOf b ≠ "" := by
  intro h
  have hlen := congrArg String.length h
  simp [dataUrlOf, String.length_append] at hlen
  exact absurd hlen.1 (by decide)

theorem genVideo_refreshOps (env : VideoEnv) (fuel : Nat) (prompt : String)
    (uid : Option String) (op₀ : Operation) (hsub : env.submit = .ok op₀) :
    refreshOps (generateVideoAndCaption env fuel prompt uid).1 =
      refreshOps (pollLoop env.refresh fuel 0 op₀).1 := by
  cases hp : (pollLoop env.refresh fuel 0 op₀).2 with
  | timeout => rw [genVideo_poll_timeout env fuel prompt uid op₀ hsub hp]; simp
  | failed e => rw [genVideo_poll_failed env fuel prompt uid op₀ e hsub hp]; simp
  | completed op =>
    rw [genVideo_poll_completed env fuel prompt uid op₀ op hsub hp]
    simp [finishVideo_refreshOps]

theorem pre_poll_noFetch (env : VideoEnv) (fuel : Nat) (op₀ : Operation) :
    ∀ e ∈ [Event.progress craftingMsg, Event.progress sendingMsg] ++
        (pollLoop env.refresh fuel 0 op₀).1, isFetch e = false := by
  intro e he
  simp at he
  rcases he with he | he | he
  · subst he; rfl
  · subst he; rfl
  · exact pollLoop_noFetch env.refresh fuel 0 op₀ e he

/-! ### The claims -/

/-- C1: in every execution of the video workflow, the handle passed to the
status-refresh call on poll round k+1 is exactly the handle returned by
the refresh of round k, the round-0 operand being the handle returned by the
initial submit; a handle is refreshed only while its completion flag is
false; and (for every fuel bound) the poll phase exits with a completed
handle exactly when the chain of handles reached from the submitted one
(round 0 being the submit itself, per the convention of the claim) hits a
handle whose completion flag is true within the bound. -/
theorem video_poll_handle_invariant (env : VideoEnv) (fuel : Nat) (prompt : String)
    (uid : Option String) (op₀ : Operation) (hsub : env.submit = .ok op₀) :
    (∀ o ∈ refreshOps (generateVideoAndCaption env fuel prompt uid).1, o.done = false) ∧
    (∀ o, (refreshOps (generateVideoAndCaption env fuel prompt uid).1)[0]? = some o →
       o = op₀) ∧
    (∀ k o o₂,
       (refreshOps (generateVideoAndCaption env fuel prompt uid).1)[k]? = some o →
       (refreshOps (generateVideoAndCaption env fuel prompt uid).1)[k + 1]? = some o₂ →
       env.refresh o = .ok o₂) ∧
    (∀ q, (pollLoop env.refresh fuel 0 op₀).2 = .completed q ↔
       ∃ k, k ≤ fuel ∧ opAfter env.refresh op₀ k = some q ∧ q.done = true) := by
  rw [genVideo_refreshOps env fuel prompt uid op₀ hsub]
  exact ⟨pollLoop_refresh_not_done env.refresh fuel 0 op₀,
         fun o h => pollLoop_refreshOps_head env.refresh fuel 0 op₀ o h,
         fun k o o₂ h1 h2 => pollLoop_refreshOps_chain env.refresh fuel 0 op₀ k o o₂ h1 h2,
         fun q => pollLoop_completed_iff env.refresh fuel 0 op₀ q⟩

/-- C1 witness: the invariant instantiated at the stub provider whose
handle completes on the third refresh. -/
theorem video_poll_handle_invariant_witness :
    (∀ o ∈ refreshOps (generateVideoAndCaption stubEnv3 5 "p" none).1, o.done = false) ∧
    (∀ o, (refreshOps (generateVideoAndCaption stubEnv3 5 "p" none).1)[0]? = some o →
       o = ⟨false, 0, none⟩) ∧
    (∀ k o o₂,
       (refreshOps (generateVideoAndCaption stubEnv3 5 "p" none).1)[k]? = some o →
       (refreshOps (generateVideoAndCaption stubEnv3 5 "p" none).1)[k + 1]? = some o₂ →
       stubEnv3.refresh o = .ok o₂) ∧
    (∀ q, (pollLoop stubEnv3.refresh 5 0 ⟨false, 0, none⟩).2 = .completed q ↔
       ∃ k, k ≤ 5 ∧ opAfter stubEnv3.refresh ⟨false, 0, none⟩ k = some q ∧
         q.done = true) :=
  video_poll_handle_invariant stubEnv3 5 "p" none ⟨false, 0, none⟩ rfl

/-- C2: the poll-phase progress message of 0-based round k is the element
at index k mod 5 of the fixed five-element flavor list, independently of
time; and against the stub whose handle completes only on the third
refresh, exactly three refresh calls occur and the poll-phase messages are
the list elements at indices 0, 1, 2, in order, all before the fetch. -/
theorem poll_messages_cycle :
    (∀ (rf : Operation → Except String Operation) (fuel : Nat) (op₀ : Operation) (k : Nat),
       k < (progressTexts (pollLoop rf fuel 0 op₀).1).length →
       (progressTexts (pollLoop rf fuel 0 op₀).1).getD k "" =
         progressMessages.getD (k % 5) "") ∧
    generateVideoAndCaption stubEnv3 5 "p" none =
      ([Event.progress craftingMsg, Event.progress sendingMsg,
        Event.progress (progressMessages.getD 0 ""),
        Event.refreshCall ⟨false, 0, none⟩,
        Event.progress (progressMessages.getD 1 ""),
        Event.refreshCall ⟨false, 1, none⟩,
        Event.progress (progressMessages.getD 2 ""),
        Event.refreshCall ⟨false, 2, none⟩,
        Event.progress fetchingMsg,
        Event.fetchCall "stub://video",
        Event.progress captioningMsg,
        Event.captionCall (videoCaptionPrompt "p"),
        Event.progress doneMsg],
       .ok "blob:stub" "caption") ∧
    (refreshOps (generateVideoAndCaption stubEnv3 5 "p" none).1).length = 3 ∧
    progressTexts (pollLoop stubEnv3.refresh 5 0 ⟨false, 0, none⟩).1 =
      [progressMessages.getD 0 "", progressMessages.getD 1 "", progressMessages.getD 2 ""] := by
  refine ⟨?_, rfl, rfl, rfl⟩
  intro rf fuel op₀ k hk
  simpa using progressTexts_pollLoop rf fuel 0 op₀ k hk

/-- C2 witness: the cyclic-selection clause evaluated at poll round 2 of
the stub run. -/
theorem poll_messages_cycle_witness :
    (progressTexts (pollLoop stubEnv3.refresh 5 0 ⟨false, 0, none⟩).1).getD 2 "" =
      progressMessages.getD (2 % 5) "" :=
  poll_messages_cycle.1 stubEnv3.refresh 5 ⟨false, 0, none⟩ 2 (by decide)

/-- C3: when the poll phase exits with a completed handle whose payload
carries no result locator (absent or empty), the workflow rejects with the
no-result error and no artifact-fetch call occurs anywhere in the run. -/
theorem missing_locator_rejects (env : VideoEnv) (fuel : Nat) (prompt : String)
    (uid : Option String) (op₀ op : Operation)
    (hsub : env.submit = .ok op₀)
    (hpoll : (pollLoop env.refresh fuel 0 op₀).2 = .completed op)
    (huri : op.uri = none ∨ op.uri = some "") :
    (generateVideoAndCaption env fuel prompt uid).2 = .err noLinkMsg ∧
    ∀ e ∈ (generateVideoAndCaption env fuel prompt uid).1, isFetch e = false := by
  rw [genVideo_poll_completed env fuel prompt uid op₀ op hsub hpoll]
  have hfin : finishVideo env.fetchVideo env.genCaption prompt uid op =
      ([Event.progress fetchingMsg], .err noLinkMsg) := by
    rcases huri with h | h
    · exact finishVideo_uri_none _ _ _ _ _ h
    · exact finishVideo_uri_empty _ _ _ _ _ h
  rw [hfin]
  refine ⟨rfl, ?_⟩
  intro e he
  simp at he
  rcases he with he | he | he | he
  · subst he; rfl
  · subst he; rfl
  · exact pollLoop_noFetch env.refresh fuel 0 op₀ e he
  · subst he; rfl

/-- C3 witness: the stub whose operation is complete at submission but has
no locator. -/
theorem missing_locator_rejects_witness :
    (generateVideoAndCaption stubEnvNoLink 0 "p" none).2 = .err noLinkMsg ∧
    ∀ e ∈ (generateVideoAndCaption stubEnvNoLink 0 "p" none).1, isFetch e = false :=
  missing_locator_rejects stubEnvNoLink 0 "p" none ⟨true, 0, none⟩ ⟨true, 0, none⟩
    rfl rfl (Or.inl rfl)

/-- C5: if the job-creation call rejects with error e, the workflow
rejects with that same error, the progress callback was invoked
(the submitting-request message among its calls), and no status-refresh
call was attempted. -/
theorem submit_failure_propagates (env : VideoEnv) (fuel : Nat) (prompt : String)
    (uid : Option String) (e : String) (hsub : env.submit = .error e) :
    (generateVideoAndCaption env fuel prompt uid).2 = .err e ∧
    sendingMsg ∈ progressTexts (generateVideoAndCaption env fuel prompt uid).1 ∧
    1 ≤ (progressTexts (generateVideoAndCaption env fuel prompt uid).1).length ∧
    refreshOps (generateVideoAndCaption env fuel prompt uid).1 = [] := by
  rw [genVideo_submit_error env fuel prompt uid e hsub]
  exact ⟨rfl, by simp, by simp, by simp⟩

/-- C5 witness: the stub whose submission rejects. -/
theorem submit_failure_propagates_witness :
    (generateVideoAndCaption stubEnvSubmitFail 2 "p" none).2 = .err "quota exceeded" ∧
    sendingMsg ∈ progressTexts (generateVideoAndCaption stubEnvSubmitFail 2 "p" none).1 ∧
    1 ≤ (progressTexts (generateVideoAndCaption stubEnvSubmitFail 2 "p" none).1).length ∧
    refreshOps (generateVideoAndCaption stubEnvSubmitFail 2 "p" none).1 = [] :=
  submit_failure_propagates stubEnvSubmitFail 2 "p" none "quota exceeded" rfl

/-- C6 counterexample: a run whose binary fetch rejects performs the fetch
call, settles (rejects), and invokes the progress callback zero times
after the fetch began — refuting "onProgress is invoked at least once
after the artifact fetch begins" as a statement about every invocation. -/
theorem progress_after_fetch_counterexample :
    (generateVideoAndCaption stubEnvFetchFail 0 "p" none).1.any isFetch = true ∧
    hasProgressAfterFetch (generateVideoAndCaption stubEnvFetchFail 0 "p" none).1 = false ∧
    (generateVideoAndCaption stubEnvFetchFail 0 "p" none).2 = .err "network down" :=
  ⟨rfl, rfl, rfl⟩

/-- C6 amended: in every video invocation the progress callback is invoked
at least twice (the two submission-phase messages, which are the first two
events of the run, hence precede every poll) ; and in every run whose
artifact-fetch call succeeds, it is invoked at least once after the fetch
begins.  (That no invocation follows settlement is structural in this
embedding: the event trace is completed before the outcome is produced.) -/
theorem video_progress_phases (env : VideoEnv) (fuel : Nat) (prompt : String)
    (uid : Option String) :
    (∃ rest, (generateVideoAndCaption env fuel prompt uid).1 =
       Event.progress craftingMsg :: Event.progress sendingMsg :: rest) ∧
    (∀ link v, Event.fetchCall link ∈ (generateVideoAndCaption env fuel prompt uid).1 →
       env.fetchVideo link = .ok v →
       hasProgressAfterFetch (generateVideoAndCaption env fuel prompt uid).1 = true) := by
  constructor
  · cases hsub : env.submit with
    | error e => rw [genVideo_submit_error env fuel prompt uid e hsub]; exact ⟨[], rfl⟩
    | ok op₀ =>
      cases hp : (pollLoop env.refresh fuel 0 op₀).2 with
      | timeout =>
        rw [genVideo_poll_timeout env fuel prompt uid op₀ hsub hp]
        exact ⟨(pollLoop env.refresh fuel 0 op₀).1, rfl⟩
      | failed e =>
        rw [genVideo_poll_failed env fuel prompt uid op₀ e hsub hp]
        exact ⟨(pollLoop env.refresh fuel 0 op₀).1, rfl⟩
      | completed op =>
        rw [genVideo_poll_completed env fuel prompt uid op₀ op hsub hp]
        exact ⟨(pollLoop env.refresh fuel 0 op₀).1 ++
          (finishVideo env.fetchVideo env.genCaption prompt uid op).1, rfl⟩
  · intro link v hmem hfv
    cases hsub : env.submit with
    | error e =>
      rw [genVideo_submit_error env fuel prompt uid e hsub] at hmem
      simp at hmem
    | ok op₀ =>
      cases hp : (pollLoop env.refresh fuel 0 op₀).2 with
      | timeout =>
        rw [genVideo_poll_timeout env fuel prompt uid op₀ hsub hp] at hmem
        have := pre_poll_noFetch env fuel op₀ (Event.fetchCall link) hmem
        simp [isFetch] at this
      | failed e =>
        rw [genVideo_poll_failed env fuel prompt uid op₀ e hsub hp] at hmem
        have := pre_poll_noFetch env fuel op₀ (Event.fetchCall link) hmem
        simp [isFetch] at this
      | completed op =>
        rw [genVideo_poll_completed env fuel prompt uid op₀ op hsub hp] at hmem ⊢
        rw [hPAF_append_noFetch _ _ (pre_poll_noFetch env fuel op₀)]
        cases huri : op.uri with
        | none =>
          rw [finishVideo_uri_none _ _ _ _ _ huri] at hmem
          rcases List.mem_append.mp hmem with hmem | hmem
          · have := pre_poll_noFetch env fuel op₀ (Event.fetchCall link) hmem
            simp [isFetch] at this
          · simp at hmem
        | some link₂ =>
          by_cases hl : link₂ = ""
          · subst hl
            rw [finishVideo_uri_empty _ _ _ _ _ huri] at hmem
            rcases List.mem_append.mp hmem with hmem | hmem
            · have := pre_poll_noFetch env fuel op₀ (Event.fetchCall link) hmem
              simp [isFetch] at this
            · simp at hmem
          · cases hf : env.fetchVideo link₂ with
            | error e =>
              rw [finishVideo_fetch_error _ _ _ _ _ link₂ e huri hl hf] at hmem
              have hll : link = link₂ := by
                rcases List.mem_append.mp hmem with hmem | hmem
                · have := pre_poll_noFetch env fuel op₀ (Event.fetchCall link) hmem
                  simp [isFetch] at this
                · simp at hmem; exact hmem
              rw [hll, hf] at hfv
              cases hfv
            | ok url =>
              cases hc : env.genCaption (videoCaptionPrompt prompt) with
              | error e =>
                rw [finishVideo_caption_error _ _ _ _ _ link₂ url e huri hl hf hc]
                dsimp only
                rw [hPAF_cons_nonfetch (Event.progress fetchingMsg) _ rfl, hPAF_cons_fetch]
                simp [isProgress]
              | ok cap =>
                rw [finishVideo_ok _ _ _ _ _ link₂ url cap huri hl hf hc]
                dsimp only
                rw [List.cons_append, List.cons_append]
                rw [hPAF_cons_nonfetch (Event.progress fetchingMsg) _ rfl, hPAF_cons_fetch]
                simp [isProgress]

/-- C6 amended witness: the fully successful stub run has a progress call
after its fetch call. -/
theorem video_progress_phases_witness :
    hasProgressAfterFetch (generateVideoAndCaption stubEnv3 5 "p" none).1 = true :=
  (video_progress_phases stubEnv3 5 "p" none).2 "stub://video" "blob:stub"
    (by decide) rfl

/-- C4: with a conforming provider (the batch call resolves with exactly N
payloads and every caption branch resolves with non-empty text), the image
workflow resolves with exactly N locator/caption entries, each locator and
caption non-empty, the j-th locator derived from the j-th provider image,
so provider order is preserved. -/
theorem image_batch_shape (env : ImageEnv) (prompt textOverlay : String) (N : Nat)
    (uid : Option String) (imgs : List String)
    (himgs : env.genImages (fullPromptOf prompt textOverlay) N = .ok imgs)
    (hN : imgs.length = N)
    (hcap : ∀ j, j < N →
      ∃ c, env.genCaption j (imageCaptionPrompt prompt) = .ok c ∧ c ≠ "") :
    ∃ l, (generateImagesAndCaptions env prompt textOverlay N uid).2 = .ok l ∧
      l.length = N ∧
      ∀ j, j < N →
        (l.getD j ("", "")).1 = dataUrlOf (imgs.getD j "") ∧
        (l.getD j ("", "")).1 ≠ "" ∧ (l.getD j ("", "")).2 ≠ "" := by
  obtain ⟨l, hl⟩ := captionEach_all_ok env.genCaption prompt uid imgs 0 fun j hj => by
    obtain ⟨c, hc, _⟩ := hcap j (hN ▸ hj)
    exact ⟨c, by simpa using hc⟩
  obtain ⟨hlen, hspec⟩ := captionEach_ok_spec env.genCaption prompt uid imgs 0 l hl
  refine ⟨l, ?_, ?_, ?_⟩
  · rw [genImages_ok env prompt textOverlay N uid imgs himgs]
    exact hl
  · rw [hlen, hN]
  · intro j hj
    obtain ⟨c, hc, hgetD⟩ := hspec j (by omega)
    obtain ⟨c₂, hc₂, hne⟩ := hcap j hj
    rw [Nat.zero_add] at hc
    rw [hc] at hc₂
    injection hc₂ with hcc
    refine ⟨by rw [hgetD], by rw [hgetD]; exact dataUrlOf_ne_empty _, ?_⟩
    rw [hgetD]
    rw [show ((dataUrlOf (imgs.getD j ""), c) : String × String).2 = c from rfl, hcc]
    exact hne

/-- C4 witness: the always-succeeding image stub at N = 2. -/
theorem image_batch_shape_witness :
    ∃ l, (generateImagesAndCaptions stubImageEnv "a red bicycle" "" 2 none).2 = .ok l ∧
      l.length = 2 ∧
      ∀ j, j < 2 →
        (l.getD j ("", "")).1 = dataUrlOf ((List.replicate 2 "QkJCQg==").getD j "") ∧
        (l.getD j ("", "")).1 ≠ "" ∧ (l.getD j ("", "")).2 ≠ "" :=
  image_batch_shape stubImageEnv "a red bicycle" "" 2 none (List.replicate 2 "QkJCQg==")
    rfl rfl (fun _ _ => ⟨"stub caption", rfl, by decide⟩)

/-- C7: a rejected batch submission rejects the whole image call with that
error; a rejected caption branch rejects the whole call; and a resolved
call always carries one entry per provider image — no partial sequence is
ever returned. -/
theorem image_failfast (env : ImageEnv) (prompt textOverlay : String) (N : Nat)
    (uid : Option String) :
    (∀ e, env.genImages (fullPromptOf prompt textOverlay) N = .error e →
       (generateImagesAndCaptions env prompt textOverlay N uid).2 = .error e) ∧
    (∀ imgs j e, env.genImages (fullPromptOf prompt textOverlay) N = .ok imgs →
       j < imgs.length → env.genCaption j (imageCaptionPrompt prompt) = .error e →
       ∃ e₂, (generateImagesAndCaptions env prompt textOverlay N uid).2 = .error e₂) ∧
    (∀ imgs l, env.genImages (fullPromptOf prompt textOverlay) N = .ok imgs →
       (generateImagesAndCaptions env prompt textOverlay N uid).2 = .ok l →
       l.length = imgs.length) := by
  refine ⟨?_, ?_, ?_⟩
  · intro e he
    rw [genImages_error env prompt textOverlay N uid e he]
  · intro imgs j e himgs hj hcap
    rw [genImages_ok env prompt textOverlay N uid imgs himgs]
    cases hres : (captionEach env.genCaption prompt uid 0 imgs).2 with
    | error e₂ => exact ⟨e₂, rfl⟩
    | ok l =>
      obtain ⟨_, hspec⟩ := captionEach_ok_spec env.genCaption prompt uid imgs 0 l hres
      obtain ⟨c, hc, _⟩ := hspec j hj
      rw [Nat.zero_add] at hc
      rw [hc] at hcap
      cases hcap
  · intro imgs l himgs hok
    rw [genImages_ok env prompt textOverlay N uid imgs himgs] at hok
    exact (captionEach_ok_spec env.genCaption prompt uid imgs 0 l hok).1

/-- C7 witness: the stub whose caption branches all reject makes the whole
call reject. -/
theorem image_failfast_witness :
    ∃ e₂, (generateImagesAndCaptions stubImageEnvCapFail "p" "" 2 none).2 = .error e₂ :=
  (image_failfast stubImageEnvCapFail "p" "" 2 none).2.1 (List.replicate 2 "QkJCQg==") 0
    "caption model unavailable" rfl (by decide) rfl

/-- C9: the image workflow submits exactly one batch request; its prompt
is the original prompt with the overlay appended as an instruction
fragment when the overlay is non-empty and is the original prompt
unchanged otherwise (empty overlay included); and every caption request of
the run is keyed on the caption prompt built from the original prompt
alone, so the overlay text reaches no caption request. -/
theorem image_prompt_construction (env : ImageEnv) (prompt textOverlay : String)
    (N : Nat) (uid : Option String) :
    List.countP isImageCall (generateImagesAndCaptions env prompt textOverlay N uid).1 = 1 ∧
    (generateImagesAndCaptions env prompt textOverlay N uid).1.getD 0 (Event.progress "") =
      Event.imageCall
        (if textOverlay = "" then prompt
         else prompt ++ ", with the text \"" ++ textOverlay ++
           "\" clearly visible and elegantly integrated.") N ∧
    ∀ p, Event.captionCall p ∈ (generateImagesAndCaptions env prompt textOverlay N uid).1 →
      p = imageCaptionPrompt prompt := by
  cases himgs : env.genImages (fullPromptOf prompt textOverlay) N with
  | error e =>
    rw [genImages_error env prompt textOverlay N uid e himgs]
    refine ⟨by simp [isImageCall], by simp [fullPromptOf], ?_⟩
    intro p hp
    simp at hp
  | ok imgs =>
    rw [genImages_ok env prompt textOverlay N uid imgs himgs]
    refine ⟨?_, by simp [fullPromptOf], ?_⟩
    · simp [List.countP_cons, isImageCall, captionEach_noImageCall]
    · intro p hp
      simp at hp
      exact captionEach_captionCalls env.genCaption prompt uid imgs 0 p hp

/-- C9 witness: the caption-request clause discharged on a concrete run
with a non-empty overlay. -/
theorem image_prompt_construction_witness :
    imageCaptionPrompt "p" = imageCaptionPrompt "p" :=
  (image_prompt_construction stubImageEnv "p" "ov" 1 none).2.2
    (imageCaptionPrompt "p") (by decide)

/-- C8: the outcome and the full event trace of both workflows are
independent of the behavior of the history recorder — the source never awaits
the addToHistory promise, so two runs differing only in the recorder
result coincide for the caller. -/
theorem history_write_noninterference (ienv : ImageEnv) (venv : VideoEnv)
    (r₁ r₂ : Except String Unit) (prompt textOverlay : String) (N fuel : Nat)
    (uid : Option String) :
    generateImagesAndCaptions { ienv with record := r₁ } prompt textOverlay N uid =
      generateImagesAndCaptions { ienv with record := r₂ } prompt textOverlay N uid ∧
    generateVideoAndCaption { venv with record := r₁ } fuel prompt uid =
      generateVideoAndCaption { venv with record := r₂ } fuel prompt uid :=
  ⟨rfl, rfl⟩

/-- C10: getHistory returns exactly the stored entries of the user sorted by
timestamp in descending order (a permutation of the stored log, pairwise
newest-first), leaves the observable log of every user unchanged, and
materializes the log cell of the user — the empty log for a previously unseen
user, observable as the empty list. -/
theorem getHistory_sorted_readonly (db : HistoryDB) (userId : String) :
    List.Perm (getHistory db userId).2 ((db userId).getD []) ∧
    List.Pairwise (fun a b : GeneratedMedia => b.timestamp ≤ a.timestamp)
      (getHistory db userId).2 ∧
    (∀ u, ((getHistory db userId).1 u).getD [] = (db u).getD []) ∧
    (getHistory db userId).1 userId = some ((db userId).getD []) := by
  refine ⟨List.mergeSort_perm _ _, ?_, ?_, by simp [getHistory]⟩
  · have htrans : ∀ a b c : GeneratedMedia,
        newestFirst a b → newestFirst b c → newestFirst a c := by
      intro a b c hab hbc
      simp [newestFirst] at hab hbc ⊢
      omega
    have htotal : ∀ a b : GeneratedMedia, newestFirst a b || newestFirst b a := by
      intro a b
      simp [newestFirst]
      omega
    have h := List.sorted_mergeSort htrans htotal ((db userId).getD [])
    refine h.imp ?_
    intro a b hab
    simpa [newestFirst] using hab
  · intro u
    by_cases hu : u = userId
    · subst hu; simp [getHistory]
    · simp [getHistory, hu]

end AIGen
